import Mathlib

/-!
Shallow embedding of the CARBONIQ off-chain balance ledger and marketplace
settlement code.

Sources embedded:
- `server/routes/balance.ts` (`getUserBalanceByEmailInternal`,
  `storeUserBalanceInternal`, `storeUserBalance`, `getUserBalanceByEmail`)
- `api/marketplace/buy.ts` (both documents: the buy handler and the
  create-listing handler) and the express marketplace routes
  (`createListing`, `buyListing`), whose bodies are line-for-line the same
  logic.
- `api/balance/email/[userEmail].ts` (the edge read handler).

Modelling conventions:
- JS numbers carrying token/rupee amounts are embedded as `Int` (the code
  only ever adds/compares them; the claims are about exact arithmetic).
- A JSON field that may be absent or non-numeric (`rupeesBalance` on blobs
  fetched from IPFS) is an `Option Int`; `none` stands for
  "absent / not a number", so JS `typeof x !== 'number'` is `Option.isNone`
  and `x ?? d` is `Option.getD d`.
- The remote Pinata/IPFS world is part of the explicit state: `blobs` maps
  a CID to the pinned JSON document (a gateway fetch succeeds exactly when
  the CID is present), `searchIndex` models the Pinata metadata search
  (pin-name to CID), `pinataAvailable` models whether credentials are
  configured (`getPinataAuthHeaders() !== null`) and `pinOk` whether a pin
  upload succeeds.
- `Date.now()` / `new Date().toISOString()` / `crypto.randomUUID()` are
  environment inputs; they are passed as explicit `now` / id arguments.
- Pinning of the `marketplace_listings.json` / `marketplace_orders.json`
  collections has no observable effect in the embedded code paths (the
  collections are never read back from IPFS), so `saveListings` /
  `saveOrders` are not given a state effect.
-/

namespace CarbonIQ

/-- One entry of an account's transaction history (`UserBalance.transactions`
element type in `server/routes/balance.ts`). -/
structure Txn where
  id : String
  amount : Int
  adminSignature : String
  timestamp : String
  ticketId : String
  walletAddress : Option String
  userEmail : String
deriving DecidableEq, Repr

/-- The `UserBalance` snapshot of `server/routes/balance.ts`.
`rupeesBalance` is `Option Int` because stored blobs may lack the field
(older snapshots); `none` models "absent or not a number". -/
structure UserBalance where
  userEmail : String
  userId : Option String
  walletAddress : Option String
  totalBalance : Int
  rupeesBalance : Option Int
  transactions : List Txn
  lastUpdated : String
deriving DecidableEq, Repr

/-- The whole storage world the balance code touches: the module-level maps
(`emailToIpfsMap`, `inMemoryBalances`), the Pinata pin store (`blobs`:
CID to pinned document; a gateway fetch succeeds iff the CID is present),
the Pinata metadata search (`searchIndex`: pin name to CID), and the
environment flags for credential presence and upload success. -/
structure Store where
  emailToIpfsMap : List (String × String)
  inMemoryBalances : List (String × UserBalance)
  blobs : List (String × UserBalance)
  searchIndex : List (String × String)
  pinataAvailable : Bool
  pinOk : Bool
  nextCid : Nat
deriving DecidableEq, Repr

/-- Embedding of toLowerCase on the account keys (ASCII emails),
written as a structural map over the character list so the kernel can
evaluate it. -/
def lowerKey (s : String) : String := String.mk (s.data.map Char.toLower)

/-- First-match association-list lookup (the embedding of `Map.get`). -/
def lookupKey {α : Type} : List (String × α) → String → Option α
  | [], _ => none
  | (k, v) :: rest, key => if k = key then some v else lookupKey rest key

/-- A store with empty maps and no pins, with the given environment flags. -/
def emptyStore (pa pok : Bool) : Store :=
  { emailToIpfsMap := [], inMemoryBalances := [], blobs := [], searchIndex := [],
    pinataAvailable := pa, pinOk := pok, nextCid := 0 }

/-- Fresh CID minted by a successful `pinJSONToIPFS` call. -/
def mintCid (s : Store) : String := "Qm" ++ toString s.nextCid

/-- The default snapshot returned for a never-seen account by
`getUserBalanceByEmailInternal` (`totalBalance: 0, rupeesBalance: 100`). -/
def freshDefault (emailKey now : String) : UserBalance :=
  { userEmail := emailKey, userId := none, walletAddress := none,
    totalBalance := 0, rupeesBalance := some 100, transactions := [],
    lastUpdated := now }

/-- Embedding of the coercion `if (typeof bal.rupeesBalance is not a number) bal.rupeesBalance = 100`. -/
def coerceRupees (b : UserBalance) : UserBalance :=
  { b with rupeesBalance := some (b.rupeesBalance.getD 100) }

/-- The hash-resolution block shared by the read paths: check
`emailToIpfsMap`, and on a miss run the Pinata metadata search (only when
credentials are configured), caching a found hash back into the map. -/
def resolveHash (s : Store) (emailKey : String) : Option String × Store :=
  match lookupKey s.emailToIpfsMap emailKey with
  | some h => (some h, s)
  | none =>
    if s.pinataAvailable then
      match lookupKey s.searchIndex (emailKey ++ "_balance.json") with
      | some h => (some h, { s with emailToIpfsMap := (emailKey, h) :: s.emailToIpfsMap })
      | none => (none, s)
    else (none, s)

/-- Embedding of `getUserBalanceByEmailInternal` of `server/routes/balance.ts` (the copy
in `api/marketplace/buy.ts` is identical): in-memory first, then hash
resolution, then the default snapshot when no hash exists, else a gateway
fetch that returns `null` on failure and coerces `rupeesBalance` on
success. -/
def getUserBalanceByEmailInternal (s : Store) (userEmail now : String) :
    Option UserBalance × Store :=
  let emailKey := lowerKey userEmail
  match lookupKey s.inMemoryBalances emailKey with
  | some mem => (some mem, s)
  | none =>
    let r := resolveHash s emailKey
    match r.fst with
    | none => (some (freshDefault emailKey now), r.snd)
    | some h =>
      match lookupKey r.snd.blobs h with
      | none => (none, r.snd)
      | some bal => (some (coerceRupees bal), r.snd)

/-- Arguments of `storeUserBalanceInternal` (and of the `storeUserBalance`
route body). `deltaRupees` defaults to `0` as in the source. -/
structure StoreArgs where
  userEmail : String
  userId : Option String := none
  walletAddress : Option String := none
  amount : Int
  adminSignature : String
  ticketId : String
  deltaRupees : Int := 0
deriving DecidableEq, Repr

/-- The transaction record appended by a store call; `txid` stands for the
generated timestamp-and-random transaction identifier. -/
def mkTxn (txid : String) (amount : Int) (sig tid : String)
    (wallet : Option String) (emailKey now : String) : Txn :=
  { id := txid, amount := amount, adminSignature := sig, timestamp := now,
    ticketId := tid, walletAddress := wallet, userEmail := emailKey }

/-- The snapshot `storeUserBalanceInternal` builds when the read found no
existing balance (`existing` initialised with zero balance and the default
rupee grant). -/
def storeFreshDefault (emailKey : String) (args : StoreArgs) (now : String) :
    UserBalance :=
  { userEmail := emailKey, userId := args.userId,
    walletAddress := args.walletAddress, totalBalance := 0,
    rupeesBalance := some 100, transactions := [], lastUpdated := now }

/-- The `newBal` object of `storeUserBalanceInternal`: first-write-wins
metadata (`existing.userId ?? userId`), `totalBalance` plus the token
delta (`existing.totalBalance || 0` is the identity on `Int`),
rupees coerced to a number before adding the delta, and one transaction
appended. -/
def applyDeltaPure (existing : UserBalance) (args : StoreArgs)
    (now txid : String) : UserBalance :=
  { existing with
    userId := existing.userId <|> args.userId
    walletAddress := existing.walletAddress <|> args.walletAddress
    totalBalance := existing.totalBalance + args.amount
    rupeesBalance := some (existing.rupeesBalance.getD 100 + args.deltaRupees)
    transactions := existing.transactions ++
      [mkTxn txid args.amount args.adminSignature args.ticketId
        args.walletAddress (lowerKey args.userEmail) now]
    lastUpdated := now }

/-- Persistence tail shared by the store paths: pin the new snapshot when
credentials are configured and the upload succeeds (registering the new CID
in the map and the metadata search), otherwise fall back to the in-memory
map. -/
def persistBalance (s : Store) (emailKey : String) (newBal : UserBalance) : Store :=
  if s.pinataAvailable then
    if s.pinOk then
      { s with blobs := (mintCid s, newBal) :: s.blobs,
               searchIndex := (emailKey ++ "_balance.json", mintCid s) :: s.searchIndex,
               emailToIpfsMap := (emailKey, mintCid s) :: s.emailToIpfsMap,
               nextCid := s.nextCid + 1 }
    else
      { s with inMemoryBalances := (emailKey, newBal) :: s.inMemoryBalances }
  else
    { s with inMemoryBalances := (emailKey, newBal) :: s.inMemoryBalances }

/-- Embedding of `storeUserBalanceInternal` of `server/routes/balance.ts` (identical in
`api/marketplace/buy.ts`): read (or default), build `newBal`, persist. -/
def storeUserBalanceInternal (s : Store) (args : StoreArgs) (now txid : String) :
    UserBalance × Store :=
  let emailKey := lowerKey args.userEmail
  let rd := getUserBalanceByEmailInternal s emailKey now
  let existing := rd.fst.getD (storeFreshDefault emailKey args now)
  let newBal := applyDeltaPure existing args now txid
  (newBal, persistBalance rd.snd emailKey newBal)

/-- The `updatedBalance` object of the `storeUserBalance` route when an
existing balance was found: `totalBalance` plus the amount,
`rupeesBalance ?? 100`, one transaction appended. -/
def routeUpdateExisting (existing : UserBalance) (args : StoreArgs)
    (now txid : String) : UserBalance :=
  { existing with
    totalBalance := existing.totalBalance + args.amount
    rupeesBalance := some (existing.rupeesBalance.getD 100)
    transactions := existing.transactions ++
      [mkTxn txid args.amount args.adminSignature args.ticketId
        args.walletAddress (lowerKey args.userEmail) now]
    lastUpdated := now }

/-- The `updatedBalance` object of the `storeUserBalance` route when no
existing balance was found: created with `totalBalance = amount` and the
default rupee grant. -/
def routeFresh (emailKey : String) (args : StoreArgs) (now txid : String) :
    UserBalance :=
  { userEmail := emailKey, userId := args.userId,
    walletAddress := args.walletAddress, totalBalance := args.amount,
    rupeesBalance := some 100,
    transactions :=
      [mkTxn txid args.amount args.adminSignature args.ticketId
        args.walletAddress emailKey now],
    lastUpdated := now }

/-- The `storeUserBalance` express route (`server/routes/balance.ts`):
validation by JS truthiness, existing balance read via the stored hash
(no metadata search, memory fallback only when no hash is known), update or
create, persist. Returns `none` (and leaves the state alone) on a
validation failure. -/
def storeUserBalanceRoute (s : Store) (args : StoreArgs) (now txid : String) :
    Option UserBalance × Store :=
  if args.userEmail = "" ∨ args.amount = 0 ∨ args.adminSignature = "" ∨
      args.ticketId = "" then
    (none, s)
  else
    let emailKey := lowerKey args.userEmail
    let existingOpt :=
      match lookupKey s.emailToIpfsMap emailKey with
      | some h => lookupKey s.blobs h
      | none => lookupKey s.inMemoryBalances emailKey
    let updated :=
      match existingOpt with
      | some existing => routeUpdateExisting existing args now txid
      | none => routeFresh emailKey args now txid
    (some updated, persistBalance s emailKey updated)

/-- The default response of the `getUserBalanceByEmail` express route for a
key with no resolvable blob: note that it has NO `rupeesBalance` field
(`none`), unlike the internal helper's default. -/
def routeDefault (emailKey now : String) : UserBalance :=
  { userEmail := emailKey, userId := none, walletAddress := none,
    totalBalance := 0, rupeesBalance := none, transactions := [],
    lastUpdated := now }

/-- The `getUserBalanceByEmail` express route (`server/routes/balance.ts`):
memory first, hash resolution with search, default (without rupees) when
unresolved or when the gateway fetch fails, and the fetched blob returned
verbatim (no rupee coercion) on success. -/
def getUserBalanceByEmailRoute (s : Store) (userEmail now : String) :
    UserBalance × Store :=
  let emailKey := lowerKey userEmail
  match lookupKey s.inMemoryBalances emailKey with
  | some mem => (mem, s)
  | none =>
    let r := resolveHash s emailKey
    match r.fst with
    | none => (routeDefault emailKey now, r.snd)
    | some h =>
      match lookupKey r.snd.blobs h with
      | none => (routeDefault emailKey now, r.snd)
      | some bal => (bal, r.snd)

/-- The edge read handler (`api/balance/email/[userEmail].ts`): memory
first, hash resolution with search, gateway fetch with rupee coercion and
write-back into the in-memory cache on success, and the `{0, 100}` default
when nothing could be fetched. -/
def balanceEmailHandler (s : Store) (userEmail now : String) :
    UserBalance × Store :=
  let emailKey := lowerKey userEmail
  match lookupKey s.inMemoryBalances emailKey with
  | some mem => (mem, s)
  | none =>
    let r := resolveHash s emailKey
    match r.fst with
    | none => (freshDefault emailKey now, r.snd)
    | some h =>
      match lookupKey r.snd.blobs h with
      | none => (freshDefault emailKey now, r.snd)
      | some bal =>
        let b := coerceRupees bal
        (b, { r.snd with inMemoryBalances := (emailKey, b) :: r.snd.inMemoryBalances })

/-- The `MarketplaceListing` record of `shared/api.ts` as used by the marketplace
routes. -/
structure Listing where
  id : String
  sellerEmail : String
  sellerUserId : Option String
  sellerWallet : String
  amountTokens : Int
  priceRupees : Int
  status : String
  createdAt : String
  updatedAt : String
deriving DecidableEq, Repr

/-- The `MarketplaceOrder` record of `shared/api.ts`. -/
structure Order where
  id : String
  listingId : String
  buyerEmail : String
  buyerUserId : Option String
  buyerWallet : String
  amountTokens : Int
  totalRupees : Int
  status : String
  adminSignature : String
  createdAt : String
deriving DecidableEq, Repr

/-- The full state the marketplace handlers touch: the balance storage world
plus the in-process `listings` and `orders` arrays. -/
structure MarketState where
  store : Store
  listings : List Listing
  orders : List Order
deriving DecidableEq, Repr

/-- An empty marketplace over an empty store. -/
def emptyMarket (pa pok : Bool) : MarketState :=
  { store := emptyStore pa pok, listings := [], orders := [] }

/-- The `CreateListingRequest` record of `shared/api.ts`. A missing numeric field of
the JSON body is encoded as `0` (both are falsy in the JS validation). -/
structure CreateListingRequest where
  sellerEmail : String
  sellerUserId : Option String
  sellerWallet : String
  amountTokens : Int
  priceRupees : Int
  signature : String
deriving DecidableEq, Repr

/-- The `BuyListingRequest` record of `shared/api.ts`. -/
structure BuyListingRequest where
  listingId : String
  buyerEmail : String
  buyerUserId : Option String
  buyerWallet : String
  signature : String
deriving DecidableEq, Repr

/-- Error taxonomy of the create-listing handler responses. -/
inductive CreateError
  | missingFields
  | invalidSignature
  | insufficientBalance
deriving DecidableEq, Repr

/-- Error taxonomy of the buy handler responses. -/
inductive BuyError
  | missingFields
  | notFound
  | listingUnavailable
  | selfTrade
  | insufficientBalance
deriving DecidableEq, Repr

/-- Boolean success test for an `Except` result. -/
def exceptIsOk {ε α : Type} : Except ε α → Bool
  | .ok _ => true
  | .error _ => false

/-- Metadata passed by `buyListing` to `updateUserBalanceByEmail`. -/
structure UpdateMeta where
  reason : String
  listingId : Option String
  counterpartyEmail : Option String
deriving DecidableEq, Repr

/-- The provenance note string built by `updateUserBalanceByEmail`. -/
def txNote (m : UpdateMeta) : String :=
  m.reason ++
    (match m.listingId with
     | some l => "|listing:" ++ l
     | none => "") ++
    (match m.counterpartyEmail with
     | some c => "|cp:" ++ c
     | none => "")

/-- Embedding of `updateUserBalanceByEmail` of `api/marketplace/buy.ts` /
`routes/marketplace.ts`: pre-read the current snapshot, delegate the write
to `storeUserBalanceInternal`, and return totals computed from the
pre-read (`current?.totalBalance || 0` plus the deltas). -/
def updateUserBalanceByEmail (s : Store) (userEmail : String)
    (deltaTokens deltaRupees : Int) (meta : UpdateMeta) (now txid : String) :
    (Int × Int) × Store :=
  let rd := getUserBalanceByEmailInternal s userEmail now
  let newTokens := ((rd.fst.map UserBalance.totalBalance).getD 0) + deltaTokens
  let newRupees := ((rd.fst.bind UserBalance.rupeesBalance).getD 100) + deltaRupees
  let st := storeUserBalanceInternal rd.snd
    { userEmail := userEmail,
      userId := rd.fst.bind UserBalance.userId,
      walletAddress := rd.fst.bind UserBalance.walletAddress,
      amount := deltaTokens,
      adminSignature := txNote meta,
      ticketId := "market_" ++ now,
      deltaRupees := deltaRupees } now txid
  ((newTokens, newRupees), st.snd)

/-- In-place mutation of the element `Array.prototype.find` returned: the
first listing with the given id is replaced, everything else is kept. -/
def setFirstById (ls : List Listing) (lid : String) (repl : Listing) :
    List Listing :=
  match ls with
  | [] => []
  | l :: rest =>
    if l.id = lid then repl :: rest else l :: setFirstById rest lid repl

/-- The successful response body of the buy handler. -/
structure BuyOk where
  listing : Listing
  order : Order
  buyerBalance : Int × Int
  sellerBalance : Int × Int
deriving DecidableEq, Repr

/-- Embedding of `buyListing` (`routes/marketplace.ts`; the body of the
`api/marketplace/buy.ts` handler is identical): required-field truthiness
check, listing lookup by id, active check, self-trade check
(`listing.sellerEmail === buyerEmail.toLowerCase()`), buyer rupee check
(`balBuyer?.rupeesBalance ?? 100`), the two paired balance updates, listing
transition to `sold`, and order creation. `orderId`, `txid1`, `txid2`
stand for the generated identifiers. -/
def buyListing (st : MarketState) (req : BuyListingRequest)
    (now orderId txid1 txid2 : String) :
    Except BuyError BuyOk × MarketState :=
  if req.listingId = "" ∨ req.buyerEmail = "" ∨ req.buyerWallet = "" ∨
      req.signature = "" then
    (.error .missingFields, st)
  else
    match st.listings.find? (fun l => l.id = req.listingId) with
    | none => (.error .notFound, st)
    | some listing =>
      if listing.status ≠ "active" then
        (.error .listingUnavailable, st)
      else if listing.sellerEmail = lowerKey req.buyerEmail then
        (.error .selfTrade, st)
      else
        let rd := getUserBalanceByEmailInternal st.store req.buyerEmail now
        let rupees := (rd.fst.bind UserBalance.rupeesBalance).getD 100
        if rupees < listing.priceRupees then
          (.error .insufficientBalance, { st with store := rd.snd })
        else
          let u1 := updateUserBalanceByEmail rd.snd req.buyerEmail
            listing.amountTokens (-listing.priceRupees)
            { reason := "market_buy", listingId := some listing.id,
              counterpartyEmail := some listing.sellerEmail } now txid1
          let u2 := updateUserBalanceByEmail u1.snd listing.sellerEmail
            (-listing.amountTokens) listing.priceRupees
            { reason := "market_sell", listingId := some listing.id,
              counterpartyEmail := some req.buyerEmail } now txid2
          let soldListing := { listing with status := "sold", updatedAt := now }
          let order : Order :=
            { id := orderId, listingId := listing.id,
              buyerEmail := lowerKey req.buyerEmail,
              buyerUserId := req.buyerUserId, buyerWallet := req.buyerWallet,
              amountTokens := listing.amountTokens,
              totalRupees := listing.priceRupees, status := "completed",
              adminSignature := req.signature, createdAt := now }
          (.ok { listing := soldListing, order := order,
                 buyerBalance := u1.fst, sellerBalance := u2.fst },
           { store := u2.snd,
             listings := setFirstById st.listings listing.id soldListing,
             orders := order :: st.orders })

/-- Embedding of `createListing` (`routes/marketplace.ts`; the create-listing handler of
`api/marketplace/buy.ts` is identical): required-field truthiness check
(note `!amountTokens` only rejects `0`, not negative values), signature
length check, seller token sufficiency check against
`bal?.totalBalance || 0`, then the new `active` listing is prepended. -/
def createListing (st : MarketState) (req : CreateListingRequest)
    (now newId : String) : Except CreateError Listing × MarketState :=
  if req.sellerEmail = "" ∨ req.sellerWallet = "" ∨ req.amountTokens = 0 ∨
      req.priceRupees = 0 ∨ req.signature = "" then
    (.error .missingFields, st)
  else if req.signature.length < 10 then
    (.error .invalidSignature, st)
  else
    let rd := getUserBalanceByEmailInternal st.store req.sellerEmail now
    let available := (rd.fst.map UserBalance.totalBalance).getD 0
    if available < req.amountTokens then
      (.error .insufficientBalance, { st with store := rd.snd })
    else
      let listing : Listing :=
        { id := newId, sellerEmail := lowerKey req.sellerEmail,
          sellerUserId := req.sellerUserId, sellerWallet := req.sellerWallet,
          amountTokens := req.amountTokens, priceRupees := req.priceRupees,
          status := "active", createdAt := now, updatedAt := now }
      (.ok listing,
       { st with store := rd.snd, listings := listing :: st.listings })

/-- One balance-delta application, by either of the two store entry points. -/
inductive LedgerOp
  | internalStore (args : StoreArgs) (now txid : String)
  | routeStore (args : StoreArgs) (now txid : String)
deriving Repr

/-- State effect of a ledger operation. -/
def applyLedgerOp (s : Store) : LedgerOp → Store
  | .internalStore a now txid => (storeUserBalanceInternal s a now txid).snd
  | .routeStore a now txid => (storeUserBalanceRoute s a now txid).snd

/-- A sequence of ledger operations. -/
def runLedger (s : Store) (ops : List LedgerOp) : Store :=
  ops.foldl applyLedgerOp s

/-- One marketplace-visible operation. -/
inductive MarketOp
  | create (req : CreateListingRequest) (now newId : String)
  | buy (req : BuyListingRequest) (now orderId txid1 txid2 : String)
  | ledger (op : LedgerOp)
deriving Repr

/-- State effect of a marketplace operation. -/
def applyMarketOp (st : MarketState) : MarketOp → MarketState
  | .create req now newId => (createListing st req now newId).snd
  | .buy req now oid t1 t2 => (buyListing st req now oid t1 t2).snd
  | .ledger op => { st with store := applyLedgerOp st.store op }

/-- A sequence of marketplace operations. -/
def runMarket (st : MarketState) (ops : List MarketOp) : MarketState :=
  ops.foldl applyMarketOp st

/-! Concrete fixtures used by witness and counterexample theorems. -/

/-- An active 20-token listing at 20 rupees by `a@x.com`. -/
def wListing : Listing :=
  { id := "L1", sellerEmail := "a@x.com", sellerUserId := none,
    sellerWallet := "0xSELLER", amountTokens := 20, priceRupees := 20,
    status := "active", createdAt := "t0", updatedAt := "t0" }

/-- An already-sold listing. -/
def wSoldListing : Listing :=
  { wListing with id := "L2", status := "sold" }

/-- An active listing priced above the default rupee grant. -/
def wPriceyListing : Listing :=
  { wListing with id := "L3", priceRupees := 200 }

/-- Marketplace state holding the three fixture listings over an empty
store without Pinata credentials. -/
def wMarket : MarketState :=
  { store := emptyStore false false,
    listings := [wListing, wSoldListing, wPriceyListing], orders := [] }

/-- A fresh buyer's well-formed buy request for `L1`. -/
def wBuyReq : BuyListingRequest :=
  { listingId := "L1", buyerEmail := "b@x.com", buyerUserId := none,
    buyerWallet := "0xBUYER", signature := "0xdeadbeef00" }

/-- The seller buying their own listing `L1`. -/
def wSelfBuyReq : BuyListingRequest :=
  { wBuyReq with buyerEmail := "a@x.com" }

/-- A fresh buyer's request for the over-priced listing `L3`. -/
def wPriceyBuyReq : BuyListingRequest :=
  { wBuyReq with listingId := "L3" }

/-- A buy request for the sold listing `L2`. -/
def wSoldBuyReq : BuyListingRequest :=
  { wBuyReq with listingId := "L2" }

/-- A create-listing request with a negative token amount. -/
def wNegativeCreateReq : CreateListingRequest :=
  { sellerEmail := "s@x.com", sellerUserId := none, sellerWallet := "0xS",
    amountTokens := -5, priceRupees := 10, signature := "0x123456789abc" }

/-- A create-listing request with a zero token amount. -/
def wZeroCreateReq : CreateListingRequest :=
  { wNegativeCreateReq with amountTokens := 0 }

/-- A stored blob whose `rupeesBalance` field is absent / non-numeric. -/
def wBadBlob : UserBalance :=
  { userEmail := "d@x.com", userId := none, walletAddress := none,
    totalBalance := 7, rupeesBalance := none, transactions := [],
    lastUpdated := "t0" }

/-- A store whose map resolves `d@x.com` to the uncoerced blob. -/
def wBadBlobStore : Store :=
  { emailToIpfsMap := [("d@x.com", "QmBAD")], inMemoryBalances := [],
    blobs := [("QmBAD", wBadBlob)], searchIndex := [],
    pinataAvailable := true, pinOk := true, nextCid := 0 }

/-- A snapshot with both metadata fields already written. -/
def wMetaBal : UserBalance :=
  { userEmail := "m@x.com", userId := some "uid-1",
    walletAddress := some "0xFIRST", totalBalance := 5,
    rupeesBalance := some 100, transactions := [], lastUpdated := "t0" }

/-- A store whose in-memory cache holds `wMetaBal`. -/
def wMetaStore : Store :=
  { emptyStore false false with inMemoryBalances := [("m@x.com", wMetaBal)] }

/-- A later delta application that tries to pass different metadata. -/
def wMetaArgs : StoreArgs :=
  { userEmail := "m@x.com", userId := some "uid-2",
    walletAddress := some "0xSECOND", amount := 3,
    adminSignature := "sig", ticketId := "tk" }

/-- A snapshot with the time-dependent field blanked, for comparing two
reads up to `lastUpdated`. -/
def stripTime (b : UserBalance) : UserBalance := { b with lastUpdated := "" }

/-- The ok-payload of an `Except`, with a fallback. -/
def exceptGetOk {ε α : Type} (d : α) : Except ε α → α
  | .ok a => a
  | .error _ => d

/-- The concrete outcome of the fixture buy of `L1` by `b@x.com`. -/
def wBuyOut : Except BuyError BuyOk × MarketState :=
  buyListing wMarket wBuyReq "t1" "O1" "x1" "x2"

/-- A placeholder order for `exceptGetOk`. -/
def wDummyOrder : Order :=
  { id := "", listingId := "", buyerEmail := "", buyerUserId := none,
    buyerWallet := "", amountTokens := 0, totalRupees := 0, status := "",
    adminSignature := "", createdAt := "" }

/-- A placeholder buy response for `exceptGetOk`. -/
def wDummyBuyOk : BuyOk :=
  { listing := wListing, order := wDummyOrder, buyerBalance := (0, 0),
    sellerBalance := (0, 0) }

/-- The successful response of the fixture buy. -/
def wBuyOkVal : BuyOk := exceptGetOk wDummyBuyOk wBuyOut.fst

/-- Sum of the `amount` fields of a transaction history. -/
def txTotal (b : UserBalance) : Int := (b.transactions.map Txn.amount).sum

/-- The transaction-sum invariant of one snapshot. -/
def txInv (b : UserBalance) : Prop := b.totalBalance = txTotal b

/-- Every snapshot reachable through the store (in-memory cache or pinned
blob) satisfies the transaction-sum invariant. -/
def StoreInv (s : Store) : Prop :=
  (∀ kv ∈ s.inMemoryBalances, txInv kv.snd) ∧ (∀ kv ∈ s.blobs, txInv kv.snd)

theorem lookupKey_pred {α : Type} (P : α → Prop) (l : List (String × α))
    (hall : ∀ kv ∈ l, P kv.snd) (k : String) (v : α)
    (h : lookupKey l k = some v) : P v := by
  induction l with
  | nil => simp [lookupKey] at h
  | cons kv rest ih =>
    obtain ⟨k', v'⟩ := kv
    by_cases hk : k' = k
    · have hv : v' = v := by simpa [lookupKey, hk] using h
      exact hv ▸ hall (k', v') (List.mem_cons_self _ _)
    · exact ih (fun kv hkv => hall kv (List.mem_cons_of_mem _ hkv))
        (by simpa [lookupKey, hk] using h)

theorem lookupKey_cons_self {α : Type} (k : String) (v : α)
    (l : List (String × α)) : lookupKey ((k, v) :: l) k = some v := by
  simp [lookupKey]

theorem resolveHash_frame (s : Store) (k : String) :
    (resolveHash s k).snd.inMemoryBalances = s.inMemoryBalances ∧
    (resolveHash s k).snd.blobs = s.blobs ∧
    (resolveHash s k).snd.searchIndex = s.searchIndex ∧
    (resolveHash s k).snd.pinataAvailable = s.pinataAvailable := by
  unfold resolveHash
  cases h : lookupKey s.emailToIpfsMap k with
  | some v => simp
  | none =>
    by_cases hp : s.pinataAvailable
    · cases hs : lookupKey s.searchIndex (k ++ "_balance.json") <;> simp [hp, hs]
    · simp [hp]

theorem resolveHash_none_of (s : Store) (k : String)
    (hmap : lookupKey s.emailToIpfsMap k = none)
    (hsearch : lookupKey s.searchIndex (k ++ "_balance.json") = none) :
    resolveHash s k = (none, s) := by
  unfold resolveHash
  rw [hmap]
  by_cases hp : s.pinataAvailable <;> simp [hp, hsearch]

theorem getInternal_frame (s : Store) (e n : String) :
    (getUserBalanceByEmailInternal s e n).snd.inMemoryBalances =
      s.inMemoryBalances ∧
    (getUserBalanceByEmailInternal s e n).snd.blobs = s.blobs := by
  unfold getUserBalanceByEmailInternal
  cases hm : lookupKey s.inMemoryBalances (lowerKey e) with
  | some m => simp [hm]
  | none =>
    have hf := resolveHash_frame s (lowerKey e)
    cases hr : (resolveHash s (lowerKey e)).fst with
    | none => simp [hm, hr, hf.1, hf.2.1]
    | some h =>
      cases hb : lookupKey s.blobs h <;>
        simp [hm, hr, hf.1, hf.2.1, hb]

/-- Claim C4: for every buy call where the buyer account key equals the
listing's seller account key after case normalization (the listing's
`sellerEmail` being a normalized account key, as `createListing` stores
it) and the listing exists and is active, the call fails with `SelfTrade`
and leaves the state untouched, regardless of the buyer's or seller's
balances. -/
theorem self_trade_rejected
    (st : MarketState) (req : BuyListingRequest) (now oid t1 t2 : String)
    (L : Listing)
    (hfind : st.listings.find? (fun l => l.id = req.listingId) = some L)
    (hact : L.status = "active")
    (hnorm : L.sellerEmail = lowerKey L.sellerEmail)
    (hkey : lowerKey req.buyerEmail = lowerKey L.sellerEmail)
    (hid : req.listingId ≠ "") (hbe : req.buyerEmail ≠ "")
    (hbw : req.buyerWallet ≠ "") (hsig : req.signature ≠ "") :
    buyListing st req now oid t1 t2 = (.error .selfTrade, st) := by
  have hself : L.sellerEmail = lowerKey req.buyerEmail := by
    rw [hnorm]
    exact hkey.symm
  unfold buyListing
  rw [if_neg (by simp [hid, hbe, hbw, hsig]), hfind]
  simp only
  rw [if_neg (by simp [hact]), if_pos hself]

/-- Witness for C4 at a concrete self-trade. -/
theorem self_trade_rejected_witness :
    buyListing wMarket wSelfBuyReq "t1" "O1" "x1" "x2" =
      (.error .selfTrade, wMarket) :=
  self_trade_rejected wMarket wSelfBuyReq "t1" "O1" "x1" "x2" wListing
    (by decide) (by decide) (by decide) (by decide) (by decide) (by decide)
    (by decide) (by decide)

/-- Claim C6: once a buy call has passed the listing-exists, listing-active
and no-self-trade checks, a buyer whose effective rupee balance
(`balBuyer?.rupeesBalance ?? 100`) is strictly below the listing price is
rejected with `InsufficientBalance` and no ledger delta is applied (the
balance maps are untouched); otherwise the rupee check passes and the call
does not fail with `InsufficientBalance`. -/
theorem insufficient_rupees_rejected
    (st : MarketState) (req : BuyListingRequest) (now oid t1 t2 : String)
    (L : Listing)
    (hfind : st.listings.find? (fun l => l.id = req.listingId) = some L)
    (hact : L.status = "active")
    (hns : L.sellerEmail ≠ lowerKey req.buyerEmail)
    (hid : req.listingId ≠ "") (hbe : req.buyerEmail ≠ "")
    (hbw : req.buyerWallet ≠ "") (hsig : req.signature ≠ "") :
    ((((getUserBalanceByEmailInternal st.store req.buyerEmail now).fst.bind
        UserBalance.rupeesBalance).getD 100) < L.priceRupees →
      buyListing st req now oid t1 t2 =
        (.error .insufficientBalance,
         { st with
             store := (getUserBalanceByEmailInternal st.store req.buyerEmail now).snd }) ∧
      (getUserBalanceByEmailInternal st.store req.buyerEmail now).snd.inMemoryBalances =
        st.store.inMemoryBalances ∧
      (getUserBalanceByEmailInternal st.store req.buyerEmail now).snd.blobs =
        st.store.blobs) ∧
    (L.priceRupees ≤
        (((getUserBalanceByEmailInternal st.store req.buyerEmail now).fst.bind
          UserBalance.rupeesBalance).getD 100) →
      (buyListing st req now oid t1 t2).fst ≠ .error .insufficientBalance) := by
  unfold buyListing
  rw [if_neg (by simp [hid, hbe, hbw, hsig]), hfind]
  simp only
  rw [if_neg (by simp [hact]), if_neg hns]
  constructor
  · intro h
    rw [if_pos h]
    exact ⟨rfl, (getInternal_frame st.store req.buyerEmail now).1,
      (getInternal_frame st.store req.buyerEmail now).2⟩
  · intro h
    rw [if_neg (not_lt.mpr h)]
    simp

/-- Witness for C6 at a concrete under-funded buy. -/
theorem insufficient_rupees_rejected_witness :
    buyListing wMarket wPriceyBuyReq "t1" "O1" "x1" "x2" =
      (.error .insufficientBalance,
       { wMarket with
           store := (getUserBalanceByEmailInternal wMarket.store
             wPriceyBuyReq.buyerEmail "t1").snd }) :=
  ((insufficient_rupees_rejected wMarket wPriceyBuyReq "t1" "O1" "x1" "x2"
      wPriceyListing (by decide) (by decide) (by decide) (by decide)
      (by decide) (by decide) (by decide)).1 (by decide)).1

/-- Counterexample for C7: a create-listing request with
`amountTokens = -5` is NOT rejected: the JS truthiness check only rejects
`0`, the signature is long enough, and the seller-balance check
`available < amountTokens` is `0 < -5`, which is false, so the listing is
created with a negative token amount. -/
theorem negative_listing_accepted :
    exceptIsOk (createListing (emptyMarket true true) wNegativeCreateReq
      "t0" "L9").fst = true ∧
    (createListing (emptyMarket true true) wNegativeCreateReq
      "t0" "L9").snd.listings =
      [{ id := "L9", sellerEmail := "s@x.com", sellerUserId := none,
         sellerWallet := "0xS", amountTokens := -5, priceRupees := 10,
         status := "active", createdAt := "t0", updatedAt := "t0" }] := by
  decide

/-- Claim C7 as amended: `createListing` rejects a request with a
validation error whenever a required field is missing/falsy
(`amountTokens = 0`, `priceRupees = 0`, or an empty string field) or the
signature is shorter than 10 characters, leaving the state unchanged;
negative amounts, however, pass validation (see the counterexample). -/
theorem create_listing_validation_amended
    (st : MarketState) (req : CreateListingRequest) (now newId : String)
    (h : req.sellerEmail = "" ∨ req.sellerWallet = "" ∨
         req.amountTokens = 0 ∨ req.priceRupees = 0 ∨ req.signature = "" ∨
         req.signature.length < 10) :
    ((createListing st req now newId).fst = .error .missingFields ∨
     (createListing st req now newId).fst = .error .invalidSignature) ∧
    (createListing st req now newId).snd = st := by
  unfold createListing
  by_cases hmf : req.sellerEmail = "" ∨ req.sellerWallet = "" ∨
      req.amountTokens = 0 ∨ req.priceRupees = 0 ∨ req.signature = ""
  · rw [if_pos hmf]
    exact ⟨Or.inl rfl, rfl⟩
  · have hsig : req.signature.length < 10 := by tauto
    rw [if_neg hmf, if_pos hsig]
    exact ⟨Or.inr rfl, rfl⟩

/-- Witness for the amended C7 at a concrete zero-amount request. -/
theorem create_listing_validation_amended_witness :
    ((createListing (emptyMarket true true) wZeroCreateReq "t0" "LZ").fst =
       .error .missingFields ∨
     (createListing (emptyMarket true true) wZeroCreateReq "t0" "LZ").fst =
       .error .invalidSignature) ∧
    (createListing (emptyMarket true true) wZeroCreateReq "t0" "LZ").snd =
      emptyMarket true true :=
  create_listing_validation_amended (emptyMarket true true) wZeroCreateReq
    "t0" "LZ" (by decide)

/-- Counterexample for C5: for a never-seen account key, the
`getUserBalanceByEmail` express route returns a snapshot whose
`rupeesBalance` field is absent, not `100` (unlike the other read
paths). -/
theorem default_grant_route_missing_rupees :
    ((getUserBalanceByEmailRoute (emptyStore true true) "c@x.com"
        "t0").fst).totalBalance = 0 ∧
    ((getUserBalanceByEmailRoute (emptyStore true true) "c@x.com"
        "t0").fst).rupeesBalance ≠ some 100 ∧
    ((getUserBalanceByEmailRoute (emptyStore true true) "c@x.com"
        "t0").fst).rupeesBalance = none := by
  decide

/-- Claim C5 as amended: for an account key with no cached balance, no
stored blob and no searchable pin, the internal read helper and the edge
balance handler return the default snapshot with `tokenBalance = 0` and
`secondaryBalance = 100`, while the `getUserBalanceByEmail` express route
returns `tokenBalance = 0` with the `rupeesBalance` field absent. -/
theorem default_grant_amended (s : Store) (k now : String)
    (hmem : lookupKey s.inMemoryBalances (lowerKey k) = none)
    (hmap : lookupKey s.emailToIpfsMap (lowerKey k) = none)
    (hsearch : lookupKey s.searchIndex (lowerKey k ++ "_balance.json") = none) :
    (getUserBalanceByEmailInternal s k now).fst =
      some (freshDefault (lowerKey k) now) ∧
    (freshDefault (lowerKey k) now).totalBalance = 0 ∧
    (freshDefault (lowerKey k) now).rupeesBalance = some 100 ∧
    (balanceEmailHandler s k now).fst = freshDefault (lowerKey k) now ∧
    (getUserBalanceByEmailRoute s k now).fst = routeDefault (lowerKey k) now ∧
    (routeDefault (lowerKey k) now).totalBalance = 0 ∧
    (routeDefault (lowerKey k) now).rupeesBalance = none := by
  have hres := resolveHash_none_of s (lowerKey k) hmap hsearch
  refine ⟨?_, rfl, rfl, ?_, ?_, rfl, rfl⟩ <;>
    simp [getUserBalanceByEmailInternal, balanceEmailHandler,
      getUserBalanceByEmailRoute, hmem, hres]

/-- Witness for the amended C5 at a concrete fresh key. -/
theorem default_grant_amended_witness :
    (getUserBalanceByEmailInternal (emptyStore true true) "c@x.com" "t0").fst =
      some (freshDefault (lowerKey "c@x.com") "t0") ∧
    (freshDefault (lowerKey "c@x.com") "t0").totalBalance = 0 ∧
    (freshDefault (lowerKey "c@x.com") "t0").rupeesBalance = some 100 ∧
    (balanceEmailHandler (emptyStore true true) "c@x.com" "t0").fst =
      freshDefault (lowerKey "c@x.com") "t0" ∧
    (getUserBalanceByEmailRoute (emptyStore true true) "c@x.com" "t0").fst =
      routeDefault (lowerKey "c@x.com") "t0" ∧
    (routeDefault (lowerKey "c@x.com") "t0").totalBalance = 0 ∧
    (routeDefault (lowerKey "c@x.com") "t0").rupeesBalance = none :=
  default_grant_amended (emptyStore true true) "c@x.com" "t0"
    (by decide) (by decide) (by decide)

/-- Counterexample for C8: two back-to-back reads of a never-seen key with
no intervening write return different snapshots, because each call mints a
fresh `lastUpdated` timestamp. -/
theorem fresh_read_not_bit_identical :
    (getUserBalanceByEmailInternal (emptyStore true true) "c@x.com"
      "2024-01-01T00:00:00Z").fst ≠
    (getUserBalanceByEmailInternal
      ((getUserBalanceByEmailInternal (emptyStore true true) "c@x.com"
        "2024-01-01T00:00:00Z").snd) "c@x.com" "2024-01-01T00:00:05Z").fst := by
  decide

theorem resolveHash_idem (s : Store) (k : String) :
    resolveHash (resolveHash s k).snd k =
      ((resolveHash s k).fst, (resolveHash s k).snd) := by
  unfold resolveHash
  cases h : lookupKey s.emailToIpfsMap k with
  | some v => simp [h]
  | none =>
    by_cases hp : s.pinataAvailable
    · cases hs : lookupKey s.searchIndex (k ++ "_balance.json") with
      | some v => simp [h, hp, hs, lookupKey_cons_self]
      | none => simp [h, hp, hs]
    · simp [h, hp]

/-- Claim C8 as amended: two back-to-back reads with no intervening write
return snapshots that agree on every field except possibly `lastUpdated`
(which the never-seen-key default mints afresh per call), and the second
read does not change the state any further. -/
theorem idempotent_read_amended (s : Store) (k now1 now2 : String) :
    ((getUserBalanceByEmailInternal s k now1).fst).map stripTime =
      ((getUserBalanceByEmailInternal
        ((getUserBalanceByEmailInternal s k now1).snd) k now2).fst).map
        stripTime ∧
    (getUserBalanceByEmailInternal
        ((getUserBalanceByEmailInternal s k now1).snd) k now2).snd =
      (getUserBalanceByEmailInternal s k now1).snd ∧
    (∀ m, lookupKey s.inMemoryBalances (lowerKey k) = some m →
      (getUserBalanceByEmailInternal s k now1).fst =
        (getUserBalanceByEmailInternal
          ((getUserBalanceByEmailInternal s k now1).snd) k now2).fst) ∧
    (∀ h, (resolveHash s (lowerKey k)).fst = some h →
      (getUserBalanceByEmailInternal s k now1).fst =
        (getUserBalanceByEmailInternal
          ((getUserBalanceByEmailInternal s k now1).snd) k now2).fst) := by
  cases hm : lookupKey s.inMemoryBalances (lowerKey k) with
  | some m =>
    refine ⟨?_, ?_, fun m' hm' => ?_, fun h hh => ?_⟩ <;>
      simp [getUserBalanceByEmailInternal, hm]
  | none =>
    have hf := resolveHash_frame s (lowerKey k)
    have hi := resolveHash_idem s (lowerKey k)
    cases hr : (resolveHash s (lowerKey k)).fst with
    | none =>
      refine ⟨?_, ?_, fun m' hm' => absurd hm' (by simp),
        fun h hh => absurd hh (by simp)⟩ <;>
        simp [getUserBalanceByEmailInternal, hm, hr, hf.1, hi, stripTime,
          freshDefault]
    | some h =>
      cases hb : lookupKey s.blobs h with
      | none =>
        refine ⟨?_, ?_, fun m' hm' => absurd hm' (by simp),
          fun h' hh => ?_⟩ <;>
          simp [getUserBalanceByEmailInternal, hm, hr, hf.1, hf.2.1, hi, hb]
      | some bal =>
        refine ⟨?_, ?_, fun m' hm' => absurd hm' (by simp),
          fun h' hh => ?_⟩ <;>
          simp [getUserBalanceByEmailInternal, hm, hr, hf.1, hf.2.1, hi, hb]

/-- Witness for the amended C8 at a concrete cached key: the two reads are
fully identical, not just identical up to `lastUpdated`. -/
theorem idempotent_read_amended_witness :
    (getUserBalanceByEmailInternal wMetaStore "m@x.com" "t5").fst =
      (getUserBalanceByEmailInternal
        ((getUserBalanceByEmailInternal wMetaStore "m@x.com" "t5").snd)
        "m@x.com" "t6").fst :=
  (idempotent_read_amended wMetaStore "m@x.com" "t5" "t6").2.2.1 wMetaBal
    (by decide)

/-- Claim C9: once a snapshot carries a defined `userId` or
`walletAddress`, a delta application through `storeUserBalanceInternal`
keeps those first-written values, whatever the caller passes. -/
theorem metadata_first_write_wins (s : Store) (args : StoreArgs)
    (now txid : String) (b : UserBalance)
    (h : (getUserBalanceByEmailInternal s (lowerKey args.userEmail)
      now).fst = some b) :
    (∀ u, b.userId = some u →
      (storeUserBalanceInternal s args now txid).fst.userId = some u) ∧
    (∀ w, b.walletAddress = some w →
      (storeUserBalanceInternal s args now txid).fst.walletAddress =
        some w) := by
  unfold storeUserBalanceInternal
  simp only [h, Option.getD_some]
  constructor
  · intro u hu
    simp [applyDeltaPure, hu, Option.orElse]
  · intro w hw
    simp [applyDeltaPure, hw, Option.orElse]

/-- Witness for C9 at a concrete account with first-written metadata. -/
theorem metadata_first_write_wins_witness :
    (storeUserBalanceInternal wMetaStore wMetaArgs "t1" "tx9").fst.userId =
      some "uid-1" ∧
    (storeUserBalanceInternal wMetaStore wMetaArgs
      "t1" "tx9").fst.walletAddress = some "0xFIRST" :=
  ⟨(metadata_first_write_wins wMetaStore wMetaArgs "t1" "tx9" wMetaBal
      (by decide)).1 "uid-1" (by decide),
   (metadata_first_write_wins wMetaStore wMetaArgs "t1" "tx9" wMetaBal
      (by decide)).2 "0xFIRST" (by decide)⟩

theorem find?_cons_pos {α : Type} (p : α → Bool) (a : α) (l : List α)
    (h : p a = true) : (a :: l).find? p = some a := by
  simp [List.find?, h]

theorem find?_cons_neg {α : Type} (p : α → Bool) (a : α) (l : List α)
    (h : p a = false) : (a :: l).find? p = l.find? p := by
  simp [List.find?, h]

theorem mem_setFirstById (ls : List Listing) (lid : String) (repl : Listing)
    (L l0 : Listing) (hL : L ∈ ls)
    (hfind : ls.find? (fun l => l.id = lid) = some l0) (hne : l0 ≠ L) :
    L ∈ setFirstById ls lid repl := by
  induction ls with
  | nil => cases hL
  | cons a rest ih =>
    unfold setFirstById
    by_cases ha : a.id = lid
    · rw [if_pos ha]
      have hl0 : l0 = a := by
        rw [find?_cons_pos _ _ _ (by simp [ha])] at hfind
        exact (Option.some.injEq _ _ ▸ hfind).symm
      rcases List.mem_cons.mp hL with hL | hL
      · exact absurd (hl0.trans hL.symm) hne
      · exact List.mem_cons_of_mem _ hL
    · rw [if_neg ha]
      rcases List.mem_cons.mp hL with hL | hL
      · exact hL ▸ List.mem_cons_self _ _
      · refine List.mem_cons_of_mem _ (ih hL ?_)
        rwa [find?_cons_neg _ _ _ (by simp [ha])] at hfind

theorem terminal_mem_step (st : MarketState) (L : Listing)
    (hL : L ∈ st.listings) (hterm : L.status ≠ "active") (op : MarketOp) :
    L ∈ (applyMarketOp st op).listings := by
  cases op with
  | ledger lop => exact hL
  | create req cnow newId =>
    show L ∈ (createListing st req cnow newId).snd.listings
    unfold createListing
    split
    · exact hL
    · split
      · exact hL
      · simp only []
        split
        · exact hL
        · exact List.mem_cons_of_mem _ hL
  | buy req bnow oid t1 t2 =>
    show L ∈ (buyListing st req bnow oid t1 t2).snd.listings
    unfold buyListing
    split
    · exact hL
    · split
      · exact hL
      · rename_i l0 hfind
        split
        · exact hL
        · rename_i hactive
          split
          · exact hL
          · simp only []
            split
            · exact hL
            · have hid : l0.id = req.listingId := by
                simpa using List.find?_some hfind
              rw [← hid] at hfind
              exact mem_setFirstById st.listings l0.id _ L l0 hL hfind
                (fun he => hterm (he ▸ not_not.mp hactive))

/-- Claim C3: once a listing's status is `sold` or `cancelled` it is
terminal — the listing record survives every further marketplace or
ledger operation unchanged, and any well-formed buy call that resolves to
it fails with `ListingUnavailable`. -/
theorem terminal_listing_stays_terminal (st : MarketState) (L : Listing)
    (hL : L ∈ st.listings)
    (hterm : L.status = "sold" ∨ L.status = "cancelled")
    (ops : List MarketOp) :
    L ∈ (runMarket st ops).listings ∧
    (∀ req now oid t1 t2, req.listingId ≠ "" → req.buyerEmail ≠ "" →
      req.buyerWallet ≠ "" → req.signature ≠ "" →
      (runMarket st ops).listings.find? (fun l => l.id = req.listingId) =
        some L →
      (buyListing (runMarket st ops) req now oid t1 t2).fst =
        .error .listingUnavailable) := by
  have hne : L.status ≠ "active" := by
    rcases hterm with h | h <;> simp [h]
  constructor
  · induction ops generalizing st with
    | nil => exact hL
    | cons op rest ih => exact ih _ (terminal_mem_step st L hL hne op)
  · intro req now oid t1 t2 hid hbe hbw hsig hfind
    unfold buyListing
    rw [if_neg (by simp [hid, hbe, hbw, hsig]), hfind]
    simp only
    rw [if_pos hne]

/-- Witness for C3: the sold fixture listing survives a create operation
and a later buy of it fails with `ListingUnavailable`. -/
theorem terminal_listing_stays_terminal_witness :
    wSoldListing ∈
      (runMarket wMarket
        [.create wNegativeCreateReq "t2" "L9"]).listings ∧
    (buyListing (runMarket wMarket [.create wNegativeCreateReq "t2" "L9"])
      wSoldBuyReq "t3" "O2" "y1" "y2").fst = .error .listingUnavailable :=
  ⟨(terminal_listing_stays_terminal wMarket wSoldListing (by decide)
      (Or.inl (by decide)) [.create wNegativeCreateReq "t2" "L9"]).1,
   (terminal_listing_stays_terminal wMarket wSoldListing (by decide)
      (Or.inl (by decide)) [.create wNegativeCreateReq "t2" "L9"]).2
     wSoldBuyReq "t3" "O2" "y1" "y2" (by decide) (by decide) (by decide)
     (by decide) (by decide)⟩

/-- Claim C1: a successful buy applies exactly two ledger deltas to the
post-check store — one to the buyer with token delta `+L.amountTokens` and
secondary delta `-L.priceRupees`, and one to the seller with token delta
`-L.amountTokens` and secondary delta `+L.priceRupees` — so the buyer's
deltas are the negations of the seller's. -/
theorem buy_applies_paired_deltas (st : MarketState)
    (req : BuyListingRequest) (now oid t1 t2 : String) (r : BuyOk)
    (st2 : MarketState)
    (h : buyListing st req now oid t1 t2 = (.ok r, st2)) :
    ∃ L dTb dRb dTs dRs,
      st.listings.find? (fun l => l.id = req.listingId) = some L ∧
      dTb = L.amountTokens ∧ dRb = -L.priceRupees ∧
      dTs = -L.amountTokens ∧ dRs = L.priceRupees ∧
      dTb = -dTs ∧ dRb = -dRs ∧
      st2.store =
        (updateUserBalanceByEmail
          ((updateUserBalanceByEmail
            ((getUserBalanceByEmailInternal st.store req.buyerEmail now).snd)
            req.buyerEmail dTb dRb
            { reason := "market_buy", listingId := some L.id,
              counterpartyEmail := some L.sellerEmail } now t1).snd)
          L.sellerEmail dTs dRs
          { reason := "market_sell", listingId := some L.id,
            counterpartyEmail := some req.buyerEmail } now t2).snd := by
  unfold buyListing at h
  split at h
  · simp at h
  · split at h
    · simp at h
    · rename_i L hfind
      split at h
      · simp at h
      · split at h
        · simp at h
        · simp only [] at h
          split at h
          · simp at h
          · rw [Prod.mk.injEq] at h
            obtain ⟨h1, h2⟩ := h
            subst h2
            exact ⟨L, L.amountTokens, -L.priceRupees, -L.amountTokens,
              L.priceRupees, hfind, rfl, rfl, rfl, rfl,
              (neg_neg _).symm, rfl, rfl⟩

/-- Witness for C1 at the concrete fixture buy. -/
theorem buy_applies_paired_deltas_witness :
    ∃ L dTb dRb dTs dRs,
      wMarket.listings.find? (fun l => l.id = wBuyReq.listingId) = some L ∧
      dTb = L.amountTokens ∧ dRb = -L.priceRupees ∧
      dTs = -L.amountTokens ∧ dRs = L.priceRupees ∧
      dTb = -dTs ∧ dRb = -dRs ∧
      wBuyOut.snd.store =
        (updateUserBalanceByEmail
          ((updateUserBalanceByEmail
            ((getUserBalanceByEmailInternal wMarket.store wBuyReq.buyerEmail
              "t1").snd)
            wBuyReq.buyerEmail dTb dRb
            { reason := "market_buy", listingId := some L.id,
              counterpartyEmail := some L.sellerEmail } "t1" "x1").snd)
          L.sellerEmail dTs dRs
          { reason := "market_sell", listingId := some L.id,
            counterpartyEmail := some wBuyReq.buyerEmail } "t1" "x2").snd :=
  buy_applies_paired_deltas wMarket wBuyReq "t1" "O1" "x1" "x2" wBuyOkVal
    wBuyOut.snd (by rfl)

/-- Counterexample for C10: the `getUserBalanceByEmail` express route
successfully fetches a stored blob whose `rupeesBalance` is absent and
returns it verbatim, exposing a snapshot with a non-numeric secondary
balance. -/
theorem route_read_uncoerced_rupees :
    (getUserBalanceByEmailRoute wBadBlobStore "d@x.com" "t1").fst =
      wBadBlob ∧
    ((getUserBalanceByEmailRoute wBadBlobStore "d@x.com"
      "t1").fst).rupeesBalance = none := by
  decide

/-- Claim C10 as amended: the internal read helper and the edge balance
handler always surface a numeric `rupeesBalance` (coercing missing values
to 100) for keys not served from the in-memory cache; the express route,
by contrast, can return an uncoerced blob (see the counterexample). -/
theorem rupees_coercion_amended (s : Store) (k now : String)
    (b : UserBalance)
    (hmem : lookupKey s.inMemoryBalances (lowerKey k) = none) :
    ((getUserBalanceByEmailInternal s k now).fst = some b →
      b.rupeesBalance.isSome = true) ∧
    ((balanceEmailHandler s k now).fst = b →
      b.rupeesBalance.isSome = true) := by
  constructor
  · intro h
    unfold getUserBalanceByEmailInternal at h
    cases hr : (resolveHash s (lowerKey k)).fst with
    | none =>
      simp [hmem, hr] at h
      simp [← h, freshDefault]
    | some hh =>
      cases hb : lookupKey (resolveHash s (lowerKey k)).snd.blobs hh with
      | none => simp [hmem, hr, hb] at h
      | some bal =>
        simp [hmem, hr, hb] at h
        simp [← h, coerceRupees]
  · intro h
    unfold balanceEmailHandler at h
    cases hr : (resolveHash s (lowerKey k)).fst with
    | none =>
      simp [hmem, hr] at h
      simp [← h, freshDefault]
    | some hh =>
      cases hb : lookupKey (resolveHash s (lowerKey k)).snd.blobs hh with
      | none =>
        simp [hmem, hr, hb] at h
        simp [← h, freshDefault]
      | some bal =>
        simp [hmem, hr, hb] at h
        simp [← h, coerceRupees]

theorem txInv_freshDefault (e n : String) : txInv (freshDefault e n) := by
  simp [txInv, txTotal, freshDefault]

theorem txInv_storeFreshDefault (e : String) (a : StoreArgs) (n : String) :
    txInv (storeFreshDefault e a n) := by
  simp [txInv, txTotal, storeFreshDefault]

theorem txInv_coerceRupees (b : UserBalance) (h : txInv b) :
    txInv (coerceRupees b) := by
  simpa [txInv, txTotal, coerceRupees] using h

theorem txInv_applyDeltaPure (b : UserBalance) (args : StoreArgs)
    (now txid : String) (h : txInv b) :
    txInv (applyDeltaPure b args now txid) := by
  simp [txInv, txTotal, applyDeltaPure, mkTxn] at h ⊢
  omega

theorem txInv_routeUpdateExisting (b : UserBalance) (args : StoreArgs)
    (now txid : String) (h : txInv b) :
    txInv (routeUpdateExisting b args now txid) := by
  simp [txInv, txTotal, routeUpdateExisting, mkTxn] at h ⊢
  omega

theorem txInv_routeFresh (e : String) (args : StoreArgs) (now txid : String) :
    txInv (routeFresh e args now txid) := by
  simp [txInv, txTotal, routeFresh, mkTxn]

theorem getInternal_txInv (s : Store) (hs : StoreInv s) (e n : String)
    (b : UserBalance)
    (h : (getUserBalanceByEmailInternal s e n).fst = some b) : txInv b := by
  unfold getUserBalanceByEmailInternal at h
  cases hm : lookupKey s.inMemoryBalances (lowerKey e) with
  | some m =>
    simp [hm] at h
    exact h ▸ lookupKey_pred txInv _ hs.1 _ m hm
  | none =>
    have hf := resolveHash_frame s (lowerKey e)
    cases hr : (resolveHash s (lowerKey e)).fst with
    | none =>
      simp [hm, hr] at h
      exact h ▸ txInv_freshDefault _ _
    | some hh =>
      cases hb : lookupKey s.blobs hh with
      | none => simp [hm, hr, hf.2.1, hb] at h
      | some bal =>
        simp [hm, hr, hf.2.1, hb] at h
        exact h ▸ txInv_coerceRupees bal (lookupKey_pred txInv _ hs.2 _ bal hb)

theorem StoreInv_persistBalance (s : Store) (e : String) (b : UserBalance)
    (hs : StoreInv s) (hb : txInv b) : StoreInv (persistBalance s e b) := by
  unfold persistBalance
  split
  · split
    · refine ⟨fun kv hkv => hs.1 kv hkv, fun kv hkv => ?_⟩
      rcases List.mem_cons.mp hkv with hkv | hkv
      · rw [hkv]
        exact hb
      · exact hs.2 kv hkv
    · refine ⟨fun kv hkv => ?_, fun kv hkv => hs.2 kv hkv⟩
      rcases List.mem_cons.mp hkv with hkv | hkv
      · rw [hkv]
        exact hb
      · exact hs.1 kv hkv
  · refine ⟨fun kv hkv => ?_, fun kv hkv => hs.2 kv hkv⟩
    rcases List.mem_cons.mp hkv with hkv | hkv
    · rw [hkv]
      exact hb
    · exact hs.1 kv hkv

theorem StoreInv_storeInternal (s : Store) (args : StoreArgs)
    (now txid : String) (hs : StoreInv s) :
    StoreInv (storeUserBalanceInternal s args now txid).snd := by
  have hf := getInternal_frame s (lowerKey args.userEmail) now
  have hs1 : StoreInv
      (getUserBalanceByEmailInternal s (lowerKey args.userEmail) now).snd := by
    constructor
    · intro kv hkv
      rw [hf.1] at hkv
      exact hs.1 kv hkv
    · intro kv hkv
      rw [hf.2] at hkv
      exact hs.2 kv hkv
  have hex : txInv
      ((getUserBalanceByEmailInternal s (lowerKey args.userEmail) now).fst.getD
        (storeFreshDefault (lowerKey args.userEmail) args now)) := by
    cases hfst : (getUserBalanceByEmailInternal s (lowerKey args.userEmail)
        now).fst with
    | none => exact txInv_storeFreshDefault _ _ _
    | some b => exact getInternal_txInv s hs _ _ b hfst
  exact StoreInv_persistBalance _ _ _ hs1 (txInv_applyDeltaPure _ _ _ _ hex)

theorem StoreInv_storeRoute (s : Store) (args : StoreArgs)
    (now txid : String) (hs : StoreInv s) :
    StoreInv (storeUserBalanceRoute s args now txid).snd := by
  unfold storeUserBalanceRoute
  split
  · exact hs
  · apply StoreInv_persistBalance _ _ _ hs
    cases hm : lookupKey s.emailToIpfsMap (lowerKey args.userEmail) with
    | some h =>
      cases hb : lookupKey s.blobs h with
      | none =>
        simp [hm, hb]
        exact txInv_routeFresh _ _ _ _
      | some bal =>
        simp [hm, hb]
        exact txInv_routeUpdateExisting bal _ _ _
          (lookupKey_pred txInv _ hs.2 _ bal hb)
    | none =>
      cases hmm : lookupKey s.inMemoryBalances (lowerKey args.userEmail) with
      | none =>
        simp [hm, hmm]
        exact txInv_routeFresh _ _ _ _
      | some m =>
        simp [hm, hmm]
        exact txInv_routeUpdateExisting m _ _ _
          (lookupKey_pred txInv _ hs.1 _ m hmm)

theorem StoreInv_applyLedgerOp (s : Store) (op : LedgerOp)
    (hs : StoreInv s) : StoreInv (applyLedgerOp s op) := by
  cases op with
  | internalStore a now txid => exact StoreInv_storeInternal s a now txid hs
  | routeStore a now txid => exact StoreInv_storeRoute s a now txid hs

theorem StoreInv_runLedger (s : Store) (ops : List LedgerOp)
    (hs : StoreInv s) : StoreInv (runLedger s ops) := by
  induction ops generalizing s with
  | nil => exact hs
  | cons op rest ih => exact ih _ (StoreInv_applyLedgerOp s op hs)

theorem StoreInv_emptyStore (pa pok : Bool) : StoreInv (emptyStore pa pok) := by
  constructor <;> intro kv hkv <;> simp [emptyStore] at hkv

/-- Claim C2: starting from an account-less store, after any sequence of
delta applications (through `storeUserBalanceInternal` or the
`storeUserBalance` route, including lazy account creation), every snapshot
the read path returns has `tokenBalance` equal to the sum of the `amount`
fields of its transaction list. -/
theorem balance_equals_transaction_sum (pa pok : Bool)
    (ops : List LedgerOp) (k now : String) (b : UserBalance)
    (h : (getUserBalanceByEmailInternal (runLedger (emptyStore pa pok) ops)
      k now).fst = some b) :
    b.totalBalance = (b.transactions.map Txn.amount).sum :=
  getInternal_txInv _ (StoreInv_runLedger _ ops (StoreInv_emptyStore pa pok))
    _ _ _ h

/-- Witness for C2: one concrete 50-token delta on a fresh account. -/
theorem balance_equals_transaction_sum_witness :
    (applyDeltaPure (freshDefault "a@x.com" "t1")
        { userEmail := "a@x.com", amount := 50, adminSignature := "sig",
          ticketId := "tk" } "t1" "tx1").totalBalance =
      ((applyDeltaPure (freshDefault "a@x.com" "t1")
        { userEmail := "a@x.com", amount := 50, adminSignature := "sig",
          ticketId := "tk" } "t1" "tx1").transactions.map Txn.amount).sum :=
  balance_equals_transaction_sum false false
    [.internalStore
      { userEmail := "a@x.com", amount := 50, adminSignature := "sig",
        ticketId := "tk" } "t1" "tx1"]
    "a@x.com" "t2" _ (by decide)

/-- Witness for the amended C10: the internal helper coerces the bad blob
to a numeric 100-rupee balance. -/
theorem rupees_coercion_amended_witness :
    ((getUserBalanceByEmailInternal wBadBlobStore "d@x.com" "t1").fst =
        some (coerceRupees wBadBlob) →
      (coerceRupees wBadBlob).rupeesBalance.isSome = true) ∧
    ((balanceEmailHandler wBadBlobStore "d@x.com" "t1").fst =
        coerceRupees wBadBlob →
      (coerceRupees wBadBlob).rupeesBalance.isSome = true) :=
  rupees_coercion_amended wBadBlobStore "d@x.com" "t1"
    (coerceRupees wBadBlob) (by decide)

end CarbonIQ
